import Mathlib

/-!
Verification development for the tenipo live-match reconciliation service
(`archiver.py`, `background_service.py`, `database.py`, `monitoring.py`,
`main.py`).  The Python modules are shallowly embedded: Mongo collections
become lists of documents keyed by `id`, in-process dictionaries become
association lists or functions into `Option`, timestamps become integers
(seconds), and fallible calls return `Except`/`Option`.
-/

namespace Tenipo

/-! ## Documents and collections -/

/-- Abstraction of a match document as stored in the active `tenipo`
collection or the `tenipo_history` collection.  Only the fields the
archiver inspects are kept explicitly: `_id`, `score.status` and
`timePolled` (an ISO timestamp, modelled as integer seconds; Mongo's
`$lt` on ISO strings is chronological order).  Every other field of the
document is collapsed into the opaque `payload`. -/
structure MatchDoc where
  id : String
  status : String
  timePolled : Int
  payload : Nat
deriving Repr, DecidableEq

/-- Whether a collection (list of documents) holds a document with `_id = i`. -/
def memberId (l : List MatchDoc) (i : String) : Bool :=
  l.any (fun d => d.id == i)

/-- `delete_many({"_id": {"$in": ids}})` on a collection. -/
def deleteManyByIds (l : List MatchDoc) (ids : List String) : List MatchDoc :=
  l.filter (fun d => !(ids.contains d.id))

/-- `history_collection.insert_many(docs, ordered=False)`.  Documents are
attempted one after the other; a document whose `_id` already exists in the
collection fails with duplicate-key code 11000; `fault` is the environment's
choice of a non-duplicate per-document write error (e.g. a document too
large), which in Mongo can only hit documents that are not duplicates.
Returns the new collection contents together with the `writeErrors` list of
`(op._id, code)` pairs that a `BulkWriteError` would report. -/
def insertManyUnordered (history : List MatchDoc) (docs : List MatchDoc)
    (fault : String → Option Nat) : List MatchDoc × List (String × Nat) :=
  match docs with
  | [] => (history, [])
  | d :: ds =>
    if memberId history d.id then
      let r := insertManyUnordered history ds fault
      (r.1, (d.id, 11000) :: r.2)
    else
      match fault d.id with
      | some c =>
        let r := insertManyUnordered history ds fault
        (r.1, (d.id, c) :: r.2)
      | none => insertManyUnordered (history ++ [d]) ds fault

/-! ## MongoArchiver (`archiver.py`) -/

/-- The two Mongo collections the archiver manipulates. -/
structure ArchState where
  active : List MatchDoc
  history : List MatchDoc
deriving Repr, DecidableEq

/-- `MongoArchiver._process_archiving` (archiver.py lines 67-105).
Step 1 bulk-inserts the batch into history; on full success every batch id
is safe to delete, on `BulkWriteError` (some `writeErrors` reported) the ids
whose only failure is duplicate-key 11000 remain safe while ids with any
other error code are excluded, and on any other exception (`totalFailure`,
e.g. connectivity — modelled as performing no inserts) the function returns
before deleting anything.  Step 2 deletes the safe ids from the active
collection. -/
def processArchiving (s : ArchState) (matchesToArchive : List MatchDoc)
    (totalFailure : Bool) (fault : String → Option Nat) : ArchState :=
  let originalIds := matchesToArchive.map (fun d => d.id)
  if totalFailure then s
  else
    let r := insertManyUnordered s.history matchesToArchive fault
    let unsafeIds := (r.2.filter (fun e => !(e.2 == 11000))).map (fun e => e.1)
    let idsToDelete :=
      if r.2.isEmpty then originalIds
      else originalIds.filter (fun i => !(unsafeIds.contains i))
    { active := deleteManyByIds s.active idsToDelete, history := r.1 }

/-- The archiver's stale threshold, `timedelta(minutes=15)` in seconds. -/
def STALE_THRESHOLD_SECONDS : Int := 900

/-- Task 1 of `MongoArchiver.archive_completed_matches` (archiver.py lines
33-40): archive the documents whose `score.status` is `"COMPLETED"` through
`_process_archiving` (skipped when there are none). -/
def archiveCompletedStage (s : ArchState) (totalFailure : Bool)
    (fault : String → Option Nat) : ArchState :=
  let completed := s.active.filter (fun d => d.status == "COMPLETED")
  if completed.isEmpty then s else processArchiving s completed totalFailure fault

/-- Task 2 of `MongoArchiver.archive_completed_matches` (archiver.py lines
42-59), the garbage collector / time-based sweep: find the documents whose
`timePolled` is older than `now - staleThreshold` and whose status is not
`"COMPLETED"`, and delete them from the active collection directly with
`delete_many` — they are not copied anywhere. -/
def staleSweepStage (s1 : ArchState) (now : Int) (staleThreshold : Int) : ArchState :=
  let staleCutoff := now - staleThreshold
  let stale := s1.active.filter
    (fun d => decide (d.timePolled < staleCutoff) && !(d.status == "COMPLETED"))
  if stale.isEmpty then s1
  else { s1 with active := deleteManyByIds s1.active (stale.map (fun d => d.id)) }

/-- `MongoArchiver.archive_completed_matches` (archiver.py lines 26-65):
task 1 then task 2 on the same collections. -/
def archiveCompletedMatches (s : ArchState) (now : Int) (staleThreshold : Int)
    (totalFailure : Bool) (fault : String → Option Nat) : ArchState :=
  staleSweepStage (archiveCompletedStage s totalFailure fault) now staleThreshold

/-! ## ScrapingService (`background_service.py`) -/

/-- In-process state manipulated by the fast-lane cycle: the two Mongo
collections, the in-memory quarantine dictionary (`self.quarantine_zone`,
match id to the time it was first seen missing) and the in-memory read
cache (`self.live_data_cache`: the cached documents together with
`last_updated`, `none` before the first rebuild). -/
structure ServiceState where
  active : List MatchDoc
  history : List MatchDoc
  quarantine : List (String × Int)
  cache : Option (List MatchDoc × Int)
deriving Repr, DecidableEq

/-- The quarantine grace period, `timedelta(seconds=60)`. -/
def QUARANTINE_PERIOD : Int := 60

/-- Tags for the methods the `MongoArchiver` class actually defines. -/
inductive ArchiverMethod
  | archiveCompletedMatches
  | processArchiving
deriving Repr, DecidableEq

/-- Python attribute lookup on a `MongoArchiver` instance for a method name.
`archiver.py` defines exactly the methods `archive_completed_matches` and
`_process_archiving` (besides `__init__`); any other attribute access
raises `AttributeError`. -/
def mongoArchiverLookup : String → Option ArchiverMethod
  | "archive_completed_matches" => some .archiveCompletedMatches
  | "_process_archiving" => some .processArchiving
  | _ => none

/-- The operation `archiveByIds(ids)` that `self.archiver.archive_matches_by_ids`
is expected to perform by its caller at background_service.py line 418: read
the records with the given ids from the active collection and move them to
history through the `_process_archiving` classification.  It is used only in
the branch of `handleQuarantineLogic` guarded by a successful attribute
lookup, which `mongoArchiverLookup_archive_matches_by_ids` shows is dead:
`archiver.py` defines no such method. -/
def archiveByIds (s : ServiceState) (ids : List String)
    (totalFailure : Bool) (fault : String → Option Nat) : ServiceState :=
  let docs := s.active.filter (fun d => ids.contains d.id)
  let a := processArchiving { active := s.active, history := s.history } docs totalFailure fault
  { s with active := a.active, history := a.history }

/-- Result of one run of the quarantine/archive step: the state it leaves
behind, the archive batch it computed, and either success or the message of
the exception it raised. -/
structure QResult where
  state : ServiceState
  batch : List String
  outcome : Except String Unit
deriving Repr

/-- Release step: drop the quarantine entries whose id reappeared in the
live feed (`reappeared_ids` handling, background_service.py lines 394-399;
the surviving entries are `self.quarantine_zone` after the deletions). -/
def releaseQuarantine (quarantine : List (String × Int)) (liveIds : List String) :
    List (String × Int) :=
  quarantine.filter (fun p => !(liveIds.contains p.1))

/-- Ids in the active collection that are in neither the live feed nor the
(post-release) quarantine dictionary (background_service.py line 403). -/
def newlyOrphanedIds (active : List MatchDoc) (liveIds : List String)
    (q1 : List (String × Int)) : List String :=
  (active.map (fun d => d.id)).filter
    (fun i => !(liveIds.contains i) && !(q1.any (fun p => p.1 == i)))

/-- The quarantine dictionary after release and entry of the newly
orphaned ids at time `now` (background_service.py lines 394-408). -/
def quarantineAfter (s : ServiceState) (liveIds : List String) (now : Int) :
    List (String × Int) :=
  let q1 := releaseQuarantine s.quarantine liveIds
  q1 ++ (newlyOrphanedIds s.active liveIds q1).map (fun i => (i, now))

/-- The cycle's archive batch: quarantined ids whose entry is older than
the grace period (background_service.py lines 411-414). -/
def archiveBatch (period : Int) (q2 : List (String × Int)) (now : Int) : List String :=
  (q2.filter (fun p => decide (now - p.2 > period))).map (fun p => p.1)

/-- `ScrapingService._handle_quarantine_logic` (background_service.py lines
389-420), with the grace period as the instance parameter `period`
(`self.QUARANTINE_PERIOD`).  In order: ids present both in quarantine and in
the live feed are released; ids that are in the active collection but in
neither the feed nor quarantine are quarantined with timestamp `now`; the
archive batch is every quarantined id whose entry is older than the grace
period.  For a non-empty batch the code invokes
`self.archiver.archive_matches_by_ids`; the attribute lookup fails
(`mongoArchiverLookup`), so the call raises `AttributeError` before touching
either collection and before the batch's quarantine entries are deleted. -/
def handleQuarantineLogic (period : Int) (liveIds : List String) (now : Int)
    (s : ServiceState) : QResult :=
  let q2 := quarantineAfter s liveIds now
  let idsToArchive := archiveBatch period q2 now
  if idsToArchive.isEmpty then
    { state := { s with quarantine := q2 }, batch := idsToArchive, outcome := .ok () }
  else
    match mongoArchiverLookup "archive_matches_by_ids" with
    | none =>
      { state := { s with quarantine := q2 }
        batch := idsToArchive
        outcome := .error "AttributeError: MongoArchiver object has no attribute archive_matches_by_ids" }
    | some _ =>
      let s2 := archiveByIds { s with quarantine := q2 } idsToArchive false (fun _ => none)
      { state := { s2 with quarantine := q2.filter (fun p => !(idsToArchive.contains p.1)) }
        batch := idsToArchive
        outcome := .ok () }

/-- One record of the live summary feed, as consumed by the fast lane: an
optional `id` key and the rest of the summary payload (tournament, players,
live score), collapsed into `payload`. -/
structure SummaryRecord where
  sid : Option String
  payload : Nat
deriving Repr, DecidableEq

/-- `transform_summary_only_to_client_format` (data_mapper.py lines
115-186) at document granularity: a summary with no id yields the empty
(falsy) dict, otherwise a fresh fast document with `score.status = "LIVE"`
and `timePolled = now`; the detail fields start empty inside `payload`. -/
def transformSummaryOnly (m : SummaryRecord) (now : Int) : Option MatchDoc :=
  match m.sid with
  | none => none
  | some i => some { id := i, status := "LIVE", timePolled := now, payload := m.payload }

/-- `MongoManager.upsert_fast_data` (database.py lines 62-105): one atomic
`update_one` with upsert that `$set`s the live fields (`timePolled`,
`score`, `tournament`, `players`) and `$setOnInsert`s everything else.  At
`MatchDoc` granularity the live fields are `status` and `timePolled`, and
the `$setOnInsert` residue is `payload`. -/
def upsertFastData (active : List MatchDoc) (i : String) (fd : MatchDoc) : List MatchDoc :=
  if memberId active i then
    active.map (fun d => if d.id == i then { d with status := fd.status, timePolled := fd.timePolled } else d)
  else
    active ++ [fd]

/-- `ScrapingService._rebuild_fast_cache` (background_service.py lines
422-432): re-read the active collection and publish it as the in-memory
cache with `last_updated = now`.  (The stall-monitor invocation on the new
cache is modelled separately by `checkAndUpdateAll`.) -/
def rebuildFastCache (s : ServiceState) (now : Int) : ServiceState :=
  { s with cache := some (s.active, now) }

/-- One iteration of `ScrapingService._lightning_fast_score_updates`
(background_service.py lines 119-164), given the result
`(summaryOk, summaries)` of `get_live_matches_summary`.  If the summary
fetch reports failure the cycle is skipped entirely.  Otherwise every
summary record with an id is transformed and upserted, the
quarantine/archive step runs, and — unless that step raised, in which case
the loop's `except` swallows the error and the rest of the cycle is
skipped — the read cache is rebuilt. -/
def fastCycle (period : Int) (summaryOk : Bool) (summaries : List SummaryRecord)
    (now : Int) (s : ServiceState) : ServiceState :=
  if !summaryOk then s
  else
    let liveIds := summaries.filterMap (fun m => m.sid)
    let s1 := summaries.foldl
      (fun st m =>
        match m.sid with
        | none => st
        | some i =>
          match transformSummaryOnly m now with
          | none => st
          | some fd => { st with active := upsertFastData st.active i fd }) s
    let r := handleQuarantineLogic period liveIds now s1
    match r.outcome with
    | .error _ => r.state
    | .ok _ => rebuildFastCache r.state now

/-! ## StallMonitor (`monitoring.py`) -/

/-- The score-relevant part of a cached match document as read by the
stall monitor: `score.sets` (each entry's `p1`/`p2`, absent keys defaulting
to 0), `score.currentGame` (`none` when the document stores `null`, which
happens for fast documents during a tiebreak) and `score.status`. -/
structure MatchScore where
  sets : List (Nat × Nat)
  currentGame : Option (String × String)
  status : String
deriving Repr, DecidableEq

/-- Per-match state kept in `StallMonitor._match_states`. -/
structure StallSt where
  scoreHash : String
  lastUpdated : Int
  alertSent : Bool
deriving Repr, DecidableEq

/-- `StallMonitor._create_score_hash` (monitoring.py lines 58-68).  When
`score.currentGame` is `null`, `current_game.get` raises and the `except`
arm returns the current wall-clock timestamp as the hash (so such a match
never looks unchanged); `wallClock` stands for that timestamp. -/
def createScoreHash (md : MatchScore) (wallClock : Int) : String :=
  match md.currentGame with
  | some g =>
    String.join (md.sets.map (fun s => toString s.1 ++ toString s.2)) ++ "_" ++ g.1 ++ g.2
  | none => toString wallClock

/-- The body of the `for match_id, match_data in all_current_matches.items()`
loop of `StallMonitor.check_and_update_all` (monitoring.py lines 101-128)
for one entry, threading the states map and the pending alert list. -/
def stallStep (dur : Int) (now : Int) (acc : (String → Option StallSt) × List String)
    (entry : String × MatchScore) : (String → Option StallSt) × List String :=
  let mid := entry.1
  let md := entry.2
  if !(md.status == "LIVE") then acc
  else
    let h := createScoreHash md now
    match acc.1 mid with
    | none =>
      (fun k => if k == mid then some { scoreHash := h, lastUpdated := now, alertSent := false } else acc.1 k,
       acc.2)
    | some prev =>
      if !(prev.scoreHash == h) then
        (fun k => if k == mid then some { scoreHash := h, lastUpdated := now, alertSent := false } else acc.1 k,
         acc.2)
      else if decide (now - prev.lastUpdated > dur) && !prev.alertSent then
        (fun k => if k == mid then some { prev with alertSent := true } else acc.1 k,
         acc.2 ++ [mid])
      else acc

/-- `StallMonitor.check_and_update_all` (monitoring.py lines 95-139):
process every entry of the snapshot, then prune the tracked ids that are no
longer present in it.  Returns the new `_match_states` map and the list of
match ids for which a stall alert was dispatched this call. -/
def checkAndUpdateAll (dur : Int) (snapshot : List (String × MatchScore)) (now : Int)
    (states : String → Option StallSt) : (String → Option StallSt) × List String :=
  let r := snapshot.foldl (stallStep dur now) (states, [])
  (fun k => if snapshot.any (fun e => e.1 == k) then r.1 k else none, r.2)

/-- Repeated stall checks over the cycle times `ts`, each cycle presenting
the same single live match `(mid, md)` (its fingerprint therefore constant);
returns the final states map and, per cycle, whether that cycle alerted for
`mid`. -/
def runStall (dur : Int) (mid : String) (md : MatchScore) :
    List Int → (String → Option StallSt) → (String → Option StallSt) × List Bool
  | [], st => (st, [])
  | t :: ts, st =>
    let c := checkAndUpdateAll dur [(mid, md)] t st
    let r := runStall dur mid md ts c.1
    (r.1, c.2.contains mid :: r.2)

/-- The per-cycle alert pattern the stall property predicts for an
unchanged streak that started at `t0` with the alert flag `fired`: an alert
fires exactly at the first check whose elapsed time since `t0` exceeds the
threshold, none before it and none after it. -/
def expectedAlerts (dur t0 : Int) : List Int → Bool → List Bool
  | [], _ => []
  | t :: ts, fired =>
    let q := decide (t - t0 > dur) && !fired
    q :: expectedAlerts dur t0 ts (fired || q)

/-! ## LeaderElector (`main.py`) -/

/-- The Redis value behind `LEADER_LOCK_KEY`: the worker id that `SET ...
NX EX ttl` stored, with its expiry instant. -/
structure Lease where
  holder : String
  expiresAt : Int
deriving Repr, DecidableEq

/-- Global state of the replica group: the single Redis key (a key past its
expiry is still shown here until overwritten, but no Redis command sees it)
and the set of workers whose `ScrapingService` is currently running. -/
structure LeaderWorld where
  lock : Option Lease
  running : List String
deriving Repr, DecidableEq

/-- Redis `GET` of the lock key at instant `t`: an expired key reads as
absent. -/
def leaseLive (world : LeaderWorld) (t : Int) : Option Lease :=
  match world.lock with
  | some l => if decide (t < l.expiresAt) then some l else none
  | none => none

/-- `LeaderElector._demote_to_follower` (main.py lines 97-104) at instant
`t`: stop the service, then delete the lock only if this worker is still
the recorded (live) holder. -/
def demoteToFollower (world : LeaderWorld) (w : String) (t : Int) : LeaderWorld :=
  { lock :=
      match leaseLive world t with
      | some l => if l.holder == w then none else world.lock
      | none => world.lock
    running := world.running.erase w }

/-- Scheduler events of the replica group.  `tryAcquire` is one pass of
`_election_loop` (main.py lines 48-66): the atomic `SET key worker NX EX
ttl`; on success the worker starts the service and becomes leader, on
failure it stays a follower.  `refreshCheck` is one wake-up of
`_refresh_lock` (main.py lines 106-121): if `GET` still returns this
worker's id the TTL is refreshed, otherwise the refresh loop exits and
`_run_as_leader` demotes the worker.  `shutdown` is a graceful stop while
(possibly) leader.  Event times are chosen by the scheduler; nothing bounds
the delay before a sleeping coroutine runs. -/
inductive LeaderEvent
  | tryAcquire (w : String) (t : Int)
  | refreshCheck (w : String) (t : Int)
  | shutdown (w : String) (t : Int)
deriving Repr, DecidableEq

/-- One scheduler event applied to the replica group. -/
def leaderStep (ttl : Int) (world : LeaderWorld) (e : LeaderEvent) : LeaderWorld :=
  match e with
  | .tryAcquire w t =>
    match leaseLive world t with
    | none =>
      { lock := some { holder := w, expiresAt := t + ttl }
        running := if world.running.contains w then world.running else world.running ++ [w] }
    | some _ => world
  | .refreshCheck w t =>
    match leaseLive world t with
    | some l =>
      if l.holder == w then { world with lock := some { holder := w, expiresAt := t + ttl } }
      else demoteToFollower world w t
    | none => demoteToFollower world w t
  | .shutdown w t => demoteToFollower world w t

/-- The replica group after a list of scheduler events, starting from cold
(no lock, no service running). -/
def leaderRun (ttl : Int) (events : List LeaderEvent) : LeaderWorld :=
  events.foldl (leaderStep ttl) { lock := none, running := [] }

/-- Worker `w` holds a non-expired lease at instant `t`. -/
def holdsLease (world : LeaderWorld) (t : Int) (w : String) : Prop :=
  ∃ l, world.lock = some l ∧ l.holder = w ∧ t < l.expiresAt

/-! ## Query surface (`main.py` endpoints) -/

/-- View of `scraping_service.live_data_cache` taken by the endpoints:
the cached documents (id, opaque payload — a document read back from Mongo
is a non-empty dict, hence truthy) and `last_updated`. -/
structure CacheView where
  data : List (String × Nat)
  lastUpdated : Option Int
deriving Repr, DecidableEq

/-- Outcome of an endpoint call: a success value or an HTTP error status. -/
inductive ApiResult (α : Type)
  | ok (value : α)
  | httpError (status : Nat)
deriving Repr, DecidableEq

/-- `GET /all_live_itf_data` (main.py lines 141-166): 503 while no leader's
service is running; 503 while `last_updated` is unset or the cached data is
empty; otherwise the cache age and match count (the payload served). -/
def getAllLiveItfData (running : Bool) (cache : CacheView) (now : Int) : ApiResult (Int × Nat) :=
  if !running then .httpError 503
  else if cache.lastUpdated.isNone || cache.data.isEmpty then .httpError 503
  else .ok (now - cache.lastUpdated.getD 0, cache.data.length)

/-- `GET /match/{match_id}` (main.py lines 169-186): 503 while no leader's
service is running; otherwise a plain dictionary lookup in the cache, 404
when the id is absent.  Unlike the all-data endpoint it never consults
`last_updated`. -/
def getMatchData (running : Bool) (cache : CacheView) (mid : String) : ApiResult Nat :=
  if !running then .httpError 503
  else
    match cache.data.find? (fun e => e.1 == mid) with
    | none => .httpError 404
    | some e => .ok e.2

/-! ## Slow-lane enrichment (`background_service.py`, `database.py`) -/

/-- One scraped point-by-point game block (`game_header`, `points_log`). -/
structure GameBlock where
  gameHeader : String
  pointsLog : List String
deriving Repr, DecidableEq

/-- Client-format point-by-point entry. -/
structure PBPEntry where
  game : String
  pointProgressionLog : List String
deriving Repr, DecidableEq

/-- `ScrapingService._parse_point_by_point` (background_service.py lines
360-370). -/
def parsePointByPoint (pbp : List GameBlock) : List PBPEntry :=
  pbp.map (fun g => { game := g.gameHeader, pointProgressionLog := g.pointsLog })

/-- Client-format previous meeting parsed from the H2H string. -/
structure H2HMeeting where
  year : Option String
  event : Option String
  surface : Option String
  score : Option String
deriving Repr, DecidableEq

/-- `ScrapingService._parse_h2h_string` (background_service.py lines
372-387): split on `#`, each part split on `/`, parts with fewer than nine
fields skipped. -/
def parseH2HString (h2h : String) : List H2HMeeting :=
  if h2h == "" then []
  else
    (h2h.splitOn "#").filterMap (fun part =>
      let fields := part.splitOn "/"
      if fields.length < 9 then none
      else some { year := fields.get? 8, event := fields.get? 5,
                  surface := fields.get? 7, score := fields.get? 2 })

/-- One row of a statistics table in client format. -/
structure StatItem where
  name : String
  home : String
  away : String
deriving Repr, DecidableEq

/-- One statistics group in client format. -/
structure StatGroup where
  groupName : String
  statisticsItems : List StatItem
deriving Repr, DecidableEq

/-- The `STAT_MAP` table of `_parse_stats_string`. -/
def statName : Nat → Option String
  | 1 => some "Aces"
  | 2 => some "Double Faults"
  | 3 => some "1st Serve"
  | 4 => some "1st Serve Points Won"
  | 5 => some "2nd Serve Points Won"
  | 6 => some "Break Points Saved"
  | 7 => some "Service Games Played"
  | 8 => some "1st Serve Return Points Won"
  | 9 => some "2nd Serve Return Points Won"
  | 10 => some "Break Points Converted"
  | 11 => some "Return Games Played"
  | _ => none

/-- Whether `pat` occurs in `s` (Python's `pat in s` for non-empty `pat`). -/
def strContainsSub (s pat : String) : Bool :=
  (s.splitOn pat).length > 1

/-- `ScrapingService._parse_stats_string` (background_service.py lines
322-358): requires exactly two `/` separators, reads value `i` of each
side's comma-separated list for statistic `i` (defaulting to "0" past the
end), and sorts each row into the Service or Return group by substring
tests on the statistic name. -/
def parseStatsString (statsStr : String) : List StatGroup :=
  if !(strContainsSub statsStr "/") then []
  else
    match statsStr.splitOn "/" with
    | [_, p1s, p2s] =>
      let p1Vals := p1s.splitOn ","
      let p2Vals := p2s.splitOn ","
      let r := (List.range 11).foldl
        (fun (acc : List StatItem × List StatItem) k =>
          let i := k + 1
          match statName i with
          | none => acc
          | some nm =>
            let p1v := (p1Vals.get? i).getD "0"
            let p2v := (p2Vals.get? i).getD "0"
            let item : StatItem := { name := nm, home := p1v, away := p2v }
            if strContainsSub nm "Serve" || strContainsSub nm "Aces" || strContainsSub nm "Double" then
              (acc.1 ++ [item], acc.2)
            else
              (acc.1, acc.2 ++ [item]))
        ([], [])
      [{ groupName := "Service", statisticsItems := r.1 },
       { groupName := "Return", statisticsItems := r.2 }]
    | _ => []

/-- Python's `a or b` for an optional string `a` with default `b`: the
empty string is falsy. -/
def orElseStr (a : Option String) (b : String) : String :=
  match a with
  | some s => if s == "" then b else s
  | none => b

/-- `ScrapingService._parse_stats_from_html_or_xml` (background_service.py
lines 313-320). -/
def parseStatsFromHtmlOrXml (statsHtml : List StatGroup) (xmlStats xmlStatistics : Option String) :
    List StatGroup :=
  if !statsHtml.isEmpty then statsHtml
  else parseStatsString (orElseStr xmlStats (orElseStr xmlStatistics ""))

/-- The fields of `raw_detailed_data["match"]` the merge reads. -/
structure RawMatchXml where
  stats : Option String
  statistics : Option String
  h2h : Option String
  courtName : Option String
  round : Option String
deriving Repr, DecidableEq

/-- A detail-fetch result (`worker.fetch_match_data`). -/
structure RawDetail where
  matchXml : RawMatchXml
  pointByPointHtml : List GameBlock
  statisticsHtml : List StatGroup
deriving Repr, DecidableEq

/-- A full client-format match document as stored in the active
collection.  The live-score fields updated by the fast lane on every cycle
are `tournament`, `players`, `score` (sets, current game, status — opaque
here) and `timePolled`; the remaining fields are detail fields. -/
structure ClientDoc where
  id : String
  tournament : String
  players : String
  score : String
  timePolled : Int
  round : Option String
  court : Option String
  matchInfoStarted : Option String
  statistics : List StatGroup
  pointByPoint : List PBPEntry
  h2h : List H2HMeeting
  hasDetailedData : Bool
  detailedDataUpdated : Option Int
deriving Repr, DecidableEq

/-- `ScrapingService._merge_detailed_with_fast_data` (background_service.py
lines 284-311): start from a copy of the fast document, fill in
`statistics`, `pointByPoint`, `h2h`, conditionally `matchInfo.court` and
`round` (only when the XML value is truthy), and mark
`hasDetailedData`/`detailedDataUpdated`.  The live-score fields of the
input are left untouched. -/
def mergeDetailedWithFastData (fast : ClientDoc) (raw : RawDetail) (now : Int) : ClientDoc :=
  let xml := raw.matchXml
  { fast with
    statistics := parseStatsFromHtmlOrXml raw.statisticsHtml xml.stats xml.statistics
    pointByPoint := parsePointByPoint raw.pointByPointHtml
    h2h := parseH2HString ((xml.h2h).getD "")
    court :=
      match xml.courtName with
      | some c => if c == "" then fast.court else some c
      | none => fast.court
    round :=
      match xml.round with
      | some r => if r == "" then fast.round else some r
      | none => fast.round
    hasDetailedData := true
    detailedDataUpdated := some now }

/-- `MongoManager.save_match_data` (database.py lines 45-60): `update_one`
with `{"$set": data}` and upsert.  `data` here is always the full merged
document, so every field of an existing document is overwritten. -/
def saveMatchData (store : List ClientDoc) (mid : String) (data : ClientDoc) : List ClientDoc :=
  if store.any (fun d => d.id == mid) then
    store.map (fun d => if d.id == mid then data else d)
  else store ++ [data]

/-- `MongoManager.upsert_fast_data` (database.py lines 62-105) at
`ClientDoc` granularity: `$set` the four live fields of an existing
document; insert the whole fast document otherwise. -/
def upsertFastClient (store : List ClientDoc) (mid : String) (fastData : ClientDoc) : List ClientDoc :=
  if store.any (fun d => d.id == mid) then
    store.map (fun d =>
      if d.id == mid then
        { d with timePolled := fastData.timePolled, score := fastData.score,
                 tournament := fastData.tournament, players := fastData.players }
      else d)
  else store ++ [fastData]

/-- `ScrapingService._enrich_single_match_with_details` (background_service.py
lines 247-282) reduced to its data flow: skip when the match is no longer in
the active collection (`find_one` returned nothing) or the detail fetch came
back falsy; otherwise produce the merged document that `save_match_data`
will write. -/
def enrichSingleMatch (current : Option ClientDoc) (raw : Option RawDetail) (now : Int) :
    Option ClientDoc :=
  match current with
  | none => none
  | some cur =>
    match raw with
    | none => none
    | some r => some (mergeDetailedWithFastData cur r now)

/-- The slow lane's enrichment of one match with a fast-lane upsert
interleaved, as the code permits: `_enrich_single_match_with_details`
performs its `find_one` and its `save_match_data` as two separate awaited
store operations with the detail fetch between them, while the fast lane
runs on its own schedule.  `fastBetween` is the fast-lane document upserted
in that window (`none` for the interleaving with no concurrent write). -/
def enrichWithConcurrentFastWrite (store : List ClientDoc) (mid : String)
    (raw : Option RawDetail) (fastBetween : Option ClientDoc) (now : Int) : List ClientDoc :=
  let current := store.find? (fun d => d.id == mid)
  let store1 :=
    match fastBetween with
    | none => store
    | some fd => upsertFastClient store mid fd
  match enrichSingleMatch current raw now with
  | none => store1
  | some merged => saveMatchData store1 mid merged

/-! ## Basic facts -/

/-- The attribute the quarantine handler invokes does not exist on
`MongoArchiver`. -/
theorem mongoArchiverLookup_archive_matches_by_ids :
    mongoArchiverLookup "archive_matches_by_ids" = none := rfl

/-! ## Claim theorems -/

/-- C1: with entity `B` quarantined at t = 0, absent from the feed, and the
60-second grace period exceeded at t = 61, the cycle's archive step computes
the due batch `["B"]` but the call to the archiver's archive-by-ids
operation raises `AttributeError` (the method does not exist), so `B` is
neither copied into the history store nor removed from the active store,
and its quarantine entry survives.  The claim's expected outcome — active
store without `B`, history store with `B` — does not happen. -/
theorem quarantine_expiry_archive_call_raises :
    handleQuarantineLogic QUARANTINE_PERIOD [] 61
        { active := [{ id := "B", status := "LIVE", timePolled := 0, payload := 0 }],
          history := [], quarantine := [("B", 0)], cache := none } =
      { state := { active := [{ id := "B", status := "LIVE", timePolled := 0, payload := 0 }],
                   history := [], quarantine := [("B", 0)], cache := none },
        batch := ["B"],
        outcome := .error "AttributeError: MongoArchiver object has no attribute archive_matches_by_ids" } :=
  rfl

/-- C4: a fast-lane cycle whose summary fetch reports failure
(`summary_success = False`) is skipped entirely: the active store, the
history store, the quarantine map and the cached snapshot are all exactly
as before — no upserts, no quarantine transition, no archiving, no cache
rebuild. -/
theorem fastCycle_skip_on_failed_summary (period : Int) (summaries : List SummaryRecord)
    (now : Int) (s : ServiceState) :
    fastCycle period false summaries now s = s := rfl

/-- C3 counterexample: a live match whose `timePolled` is older than the
15-minute stale threshold is deleted from the active store by the
time-based sweep of `archive_completed_matches` without ever being copied
into the history store, so the claim that no operation deletes an active
record that is not durably present in history is false on the code. -/
theorem stale_sweep_deletes_unarchived_record :
    archiveCompletedMatches
        { active := [{ id := "X", status := "LIVE", timePolled := 0, payload := 0 }],
          history := [] }
        1000 STALE_THRESHOLD_SECONDS false (fun _ => none) =
      { active := [], history := [] } := rfl

/-- C8 counterexample: worker `A` acquires the lease at t = 0 with a
10-second TTL and starts its poller; its renewal coroutine is delayed past
the lease expiry (nothing bounds the wake-up of `asyncio.sleep`), so at
t = 11 worker `B`'s `SET NX` finds the key expired, acquires the lease and
starts its poller while `A`'s poller is still running — two replicas'
polling services run at the same time, refuting the claim's "at most one
replica's polling service ever runs at a time". -/
theorem two_pollers_running_concurrently :
    "A" ∈ (leaderRun 10 [.tryAcquire "A" 0, .tryAcquire "B" 5, .tryAcquire "B" 11]).running ∧
    "B" ∈ (leaderRun 10 [.tryAcquire "A" 0, .tryAcquire "B" 5, .tryAcquire "B" 11]).running ∧
    ("A" : String) ≠ "B" := by
  refine ⟨?_, ?_, ?_⟩ <;> decide

/-- C9 counterexample: before the first snapshot rebuild (service running,
cache empty, `last_updated` unset) the single-entity read returns 404, not
the 503 "unavailable" the claim asserts for both reads; only the
full-snapshot read returns 503 there. -/
theorem match_endpoint_404_before_first_rebuild :
    getMatchData true { data := [], lastUpdated := none } "m1" = .httpError 404 ∧
    getMatchData true { data := [], lastUpdated := none } "m1" ≠ .httpError 503 ∧
    getAllLiveItfData true { data := [], lastUpdated := none } 0 = .httpError 503 := by
  refine ⟨rfl, by decide, rfl⟩

/-- C10 counterexample: the fast lane upserts a new live score (`sets 1-0`)
between the slow lane's `find_one` and its `save_match_data`; because
`save_match_data` `$set`s the entire merged document, the saved record's
`score` reverts to the value read before the fetch (`sets 0-0`) — the
record does not hold the most recent fast-lane value, refuting the claim
that enrichment never clobbers concurrently updated live score fields. -/
theorem enrichment_overwrites_concurrent_fast_write :
    (enrichWithConcurrentFastWrite
        [{ id := "m1", tournament := "T", players := "P", score := "sets 0-0", timePolled := 0,
           round := none, court := none, matchInfoStarted := none, statistics := [],
           pointByPoint := [], h2h := [], hasDetailedData := false, detailedDataUpdated := none }]
        "m1"
        (some { matchXml := { stats := none, statistics := none, h2h := none,
                              courtName := none, round := none },
                pointByPointHtml := [], statisticsHtml := [] })
        (some { id := "m1", tournament := "T", players := "P", score := "sets 1-0", timePolled := 5,
                round := none, court := none, matchInfoStarted := none, statistics := [],
                pointByPoint := [], h2h := [], hasDetailedData := false, detailedDataUpdated := none })
        7).map (fun d => d.score) = ["sets 0-0"] ∧ ("sets 0-0" : String) ≠ "sets 1-0" := by
  refine ⟨rfl, by decide⟩

/-- C9 (amended): while no leader's service is running both reads return
503; once running, the full-snapshot read returns 503 exactly while
`last_updated` is unset or the cached data is empty (hence for every
request before the first rebuild), while the single-entity read never
consults `last_updated`: it returns 404 for any id absent from the cache —
including every id before the first rebuild — and the document otherwise. -/
theorem endpoints_unavailable_and_not_found_behavior
    (running : Bool) (cache : CacheView) (mid : String) (now : Int) :
    (running = false → getAllLiveItfData running cache now = .httpError 503 ∧
        getMatchData running cache mid = .httpError 503) ∧
    (running = true → cache.lastUpdated = none ∨ cache.data = [] →
        getAllLiveItfData running cache now = .httpError 503) ∧
    (running = true → cache.data.find? (fun e => e.1 == mid) = none →
        getMatchData running cache mid = .httpError 404) ∧
    (running = true → ∀ p, cache.data.find? (fun e => e.1 == mid) = some p →
        getMatchData running cache mid = .ok p.2) := by
  refine ⟨?_, ?_, ?_, ?_⟩
  · rintro rfl
    exact ⟨rfl, rfl⟩
  · rintro rfl h
    unfold getAllLiveItfData
    rcases h with h | h <;> simp [h]
  · rintro rfl h
    unfold getMatchData
    simp [h]
  · rintro rfl p h
    unfold getMatchData
    simp [h]

/-- Witness for `endpoints_unavailable_and_not_found_behavior` at concrete
inputs: a stopped service answers 503 on both endpoints, and a running one
serves a cached document. -/
theorem endpoints_unavailable_and_not_found_behavior_witness :
    getAllLiveItfData false { data := [], lastUpdated := none } 0 = .httpError 503 ∧
    getMatchData false { data := [], lastUpdated := none } "x" = .httpError 503 ∧
    getMatchData true { data := [("a", 1)], lastUpdated := some 0 } "a" = .ok 1 := by
  obtain ⟨h1, -, -, -⟩ :=
    endpoints_unavailable_and_not_found_behavior false { data := [], lastUpdated := none } "x" 0
  obtain ⟨-, -, -, h4⟩ :=
    endpoints_unavailable_and_not_found_behavior true { data := [("a", 1)], lastUpdated := some 0 } "a" 0
  exact ⟨(h1 rfl).1, (h1 rfl).2, h4 rfl ("a", 1) rfl⟩

/-- C8 (amended): at most one replica holds a non-expired lease at any
instant, the lease is acquired only by the atomic set-if-absent (a
`tryAcquire` while someone else holds a live lease changes nothing), and it
is refreshed only while the refreshing process is still the recorded
holder (a `refreshCheck` by anyone else leaves the lock untouched).
Poller exclusivity, however, is not instantaneous: a replica that lost its
lease keeps its poller running until its next renewal check, so "at most
one poller runs at a time" holds only up to one renewal interval of
overlap. -/
theorem lease_exclusion_and_refresh_discipline
    (ttl : Int) (events : List LeaderEvent) (t : Int) (w1 w2 : String)
    (world : LeaderWorld) (x v : String) (tx : Int) :
    (holdsLease (leaderRun ttl events) t w1 → holdsLease (leaderRun ttl events) t w2 → w1 = w2) ∧
    (holdsLease world tx v → v ≠ x → leaderStep ttl world (.tryAcquire x tx) = world) ∧
    (holdsLease world tx v → v ≠ x →
        (leaderStep ttl world (.refreshCheck x tx)).lock = world.lock) := by
  refine ⟨?_, ?_, ?_⟩
  · rintro ⟨l1, h1, hh1, -⟩ ⟨l2, h2, hh2, -⟩
    rw [h1] at h2
    obtain rfl : l1 = l2 := by injection h2
    rw [← hh1, ← hh2]
  · rintro ⟨l, hlock, hholder, hexp⟩ hne
    unfold leaderStep leaseLive
    rw [hlock]
    simp [hexp]
  · rintro ⟨l, hlock, hholder, hexp⟩ hne
    have hlive : leaseLive world tx = some l := by
      unfold leaseLive
      rw [hlock]
      simp [hexp]
    unfold leaderStep demoteToFollower
    simp [hlive, hholder, hne]

/-- Witness for `lease_exclusion_and_refresh_discipline`: worker `A` holds
the lease `(A, expires 10)` at t = 5; uniqueness, a failing acquisition by
`B`, and a non-refreshing check by `B` are all obtained from the theorem at
these concrete inputs. -/
theorem lease_exclusion_and_refresh_discipline_witness :
    ("A" : String) = "A" ∧
    leaderStep 10 { lock := some { holder := "A", expiresAt := 10 }, running := ["A"] }
        (.tryAcquire "B" 5) =
      { lock := some { holder := "A", expiresAt := 10 }, running := ["A"] } ∧
    (leaderStep 10 { lock := some { holder := "A", expiresAt := 10 }, running := ["A"] }
        (.refreshCheck "B" 5)).lock = some { holder := "A", expiresAt := 10 } := by
  have hold : holdsLease (leaderRun 10 [.tryAcquire "A" 0]) 5 "A" :=
    ⟨{ holder := "A", expiresAt := 10 }, rfl, rfl, by decide⟩
  have hold2 : holdsLease { lock := some { holder := "A", expiresAt := 10 }, running := ["A"] } 5 "A" :=
    ⟨{ holder := "A", expiresAt := 10 }, rfl, rfl, by decide⟩
  obtain ⟨h1, h2, h3⟩ :=
    lease_exclusion_and_refresh_discipline 10 [.tryAcquire "A" 0] 5 "A" "A"
      { lock := some { holder := "A", expiresAt := 10 }, running := ["A"] } "B" "A" 5
  exact ⟨h1 hold hold, h2 hold2 (by decide), h3 hold2 (by decide)⟩

/-! ## Archive-safety lemmas -/

theorem memberId_append (a b : List MatchDoc) (i : String) :
    memberId (a ++ b) i = (memberId a i || memberId b i) := by
  simp [memberId, List.any_append]

theorem memberId_snoc (h : List MatchDoc) (d : MatchDoc) (i : String) :
    memberId (h ++ [d]) i = (memberId h i || d.id == i) := by
  simp [memberId, List.any_append]

theorem memberId_iff_exists (l : List MatchDoc) (i : String) :
    memberId l i = true ↔ ∃ d ∈ l, d.id = i := by
  simp [memberId, List.any_eq_true]

theorem memberId_deleteMany (a : List MatchDoc) (ids : List String) (i : String) :
    memberId (deleteManyByIds a ids) i = (memberId a i && !(ids.contains i)) := by
  induction a with
  | nil => rfl
  | cons d a ih =>
    unfold deleteManyByIds memberId at ih ⊢
    rw [List.filter_cons, List.any_cons]
    by_cases hdi : d.id = i
    · subst hdi
      cases hc : ids.contains d.id with
      | true =>
        simp only [Bool.not_true]
        rw [if_neg Bool.false_ne_true, ih, hc]
        simp
      | false =>
        simp only [Bool.not_false]
        rw [if_pos trivial, List.any_cons, ih, hc]
        simp
    · have hbeq : (d.id == i) = false := beq_false_of_ne hdi
      cases hc : ids.contains d.id with
      | true =>
        simp only [Bool.not_true]
        rw [if_neg Bool.false_ne_true, ih, hbeq]
        simp
      | false =>
        simp only [Bool.not_false]
        rw [if_pos trivial, List.any_cons, ih, hbeq]
        simp

/-- Membership in the history collection after an unordered bulk insert of
documents with pairwise distinct ids: an id is present afterwards iff it
was present before or its document was in the batch, was not a duplicate,
and was not hit by a write fault. -/
theorem mem_insertMany_hist (ds : List MatchDoc) (h : List MatchDoc)
    (fault : String → Option Nat) (i : String)
    (hnd : (ds.map (fun d => d.id)).Nodup) :
    memberId (insertManyUnordered h ds fault).1 i = true ↔
      (memberId h i = true ∨
        ((∃ d ∈ ds, d.id = i) ∧ memberId h i = false ∧ fault i = none)) := by
  induction ds generalizing h with
  | nil => simp [insertManyUnordered]
  | cons d ds ih =>
    rw [List.map_cons, List.nodup_cons] at hnd
    obtain ⟨hhead, hnd⟩ := hnd
    unfold insertManyUnordered
    by_cases hmem : memberId h d.id = true
    · rw [if_pos hmem]
      dsimp only
      rw [ih h hnd]
      constructor
      · rintro (hm | ⟨⟨e, he, rfl⟩, hf, hfa⟩)
        · exact Or.inl hm
        · exact Or.inr ⟨⟨e, List.mem_cons_of_mem d he, rfl⟩, hf, hfa⟩
      · rintro (hm | ⟨⟨e, he, rfl⟩, hf, hfa⟩)
        · exact Or.inl hm
        · rcases List.mem_cons.mp he with rfl | he
          · rw [hmem] at hf
            cases hf
          · exact Or.inr ⟨⟨e, he, rfl⟩, hf, hfa⟩
    · rw [if_neg hmem]
      replace hmem : memberId h d.id = false := by simpa using hmem
      cases hfd : fault d.id with
      | some c =>
        dsimp only
        rw [ih h hnd]
        constructor
        · rintro (hm | ⟨⟨e, he, rfl⟩, hf, hfa⟩)
          · exact Or.inl hm
          · exact Or.inr ⟨⟨e, List.mem_cons_of_mem d he, rfl⟩, hf, hfa⟩
        · rintro (hm | ⟨⟨e, he, rfl⟩, hf, hfa⟩)
          · exact Or.inl hm
          · rcases List.mem_cons.mp he with rfl | he
            · rw [hfd] at hfa
              cases hfa
            · exact Or.inr ⟨⟨e, he, rfl⟩, hf, hfa⟩
      | none =>
        dsimp only
        rw [ih (h ++ [d]) hnd]
        by_cases hdi : d.id = i
        · subst hdi
          have hsnoc : memberId (h ++ [d]) d.id = true := by
            rw [memberId_snoc, hmem]
            simp
          rw [hsnoc]
          constructor
          · intro _
            exact Or.inr ⟨⟨d, List.mem_cons_self d ds, rfl⟩, hmem, hfd⟩
          · intro _
            exact Or.inl rfl
        · have hsnoc : memberId (h ++ [d]) i = memberId h i := by
            rw [memberId_snoc, beq_false_of_ne hdi, Bool.or_false]
          rw [hsnoc]
          constructor
          · rintro (hm | ⟨⟨e, he, rfl⟩, hf, hfa⟩)
            · exact Or.inl hm
            · exact Or.inr ⟨⟨e, List.mem_cons_of_mem d he, rfl⟩, hf, hfa⟩
          · rintro (hm | ⟨⟨e, he, rfl⟩, hf, hfa⟩)
            · exact Or.inl hm
            · rcases List.mem_cons.mp he with rfl | he
              · exact absurd rfl hdi
              · exact Or.inr ⟨⟨e, he, rfl⟩, hf, hfa⟩

/-- The `writeErrors` reported by an unordered bulk insert of documents
with pairwise distinct ids: `(i, c)` is reported iff the batch holds a
document with id `i` and either `i` was already in the collection (then
`c = 11000`) or the write fault hit it (then `c` is the fault's code). -/
theorem mem_insertMany_errs (ds : List MatchDoc) (h : List MatchDoc)
    (fault : String → Option Nat) (i : String) (c : Nat)
    (hnd : (ds.map (fun d => d.id)).Nodup) :
    (i, c) ∈ (insertManyUnordered h ds fault).2 ↔
      ∃ d ∈ ds, d.id = i ∧
        ((memberId h i = true ∧ c = 11000) ∨ (memberId h i = false ∧ fault i = some c)) := by
  induction ds generalizing h with
  | nil => simp [insertManyUnordered]
  | cons d ds ih =>
    rw [List.map_cons, List.nodup_cons] at hnd
    obtain ⟨hhead, hnd⟩ := hnd
    unfold insertManyUnordered
    by_cases hmem : memberId h d.id = true
    · rw [if_pos hmem]
      dsimp only
      rw [List.mem_cons, ih h hnd]
      constructor
      · rintro (heq | ⟨e, he, hei, hrest⟩)
        · injection heq with hi hc2
          subst hi
          subst hc2
          exact ⟨d, List.mem_cons_self d ds, rfl, Or.inl ⟨hmem, rfl⟩⟩
        · exact ⟨e, List.mem_cons_of_mem d he, hei, hrest⟩
      · rintro ⟨e, he, hei, hrest⟩
        rcases List.mem_cons.mp he with rfl | he2
        · subst hei
          rcases hrest with ⟨-, hc2⟩ | ⟨hm, -⟩
          · subst hc2
            exact Or.inl rfl
          · simp [hmem] at hm
        · exact Or.inr ⟨e, he2, hei, hrest⟩
    · rw [if_neg hmem]
      replace hmem : memberId h d.id = false := by simpa using hmem
      cases hfd : fault d.id with
      | some cc =>
        dsimp only
        rw [List.mem_cons, ih h hnd]
        constructor
        · rintro (heq | ⟨e, he, hei, hrest⟩)
          · injection heq with hi hc2
            subst hi
            subst hc2
            exact ⟨d, List.mem_cons_self d ds, rfl, Or.inr ⟨hmem, hfd⟩⟩
          · exact ⟨e, List.mem_cons_of_mem d he, hei, hrest⟩
        · rintro ⟨e, he, hei, hrest⟩
          rcases List.mem_cons.mp he with rfl | he2
          · subst hei
            rcases hrest with ⟨hm, -⟩ | ⟨-, hf⟩
            · simp [hmem] at hm
            · rw [hfd] at hf
              injection hf with h2
              subst h2
              exact Or.inl rfl
          · exact Or.inr ⟨e, he2, hei, hrest⟩
      | none =>
        dsimp only
        rw [ih (h ++ [d]) hnd]
        by_cases hdi : d.id = i
        · subst hdi
          constructor
          · rintro ⟨e, he, hei, -⟩
            rw [← hei] at hhead
            exact absurd (List.mem_map_of_mem (fun d => d.id) he) hhead
          · rintro ⟨e, he, hei, hrest⟩
            rcases List.mem_cons.mp he with rfl | he2
            · rcases hrest with ⟨hm, -⟩ | ⟨-, hf⟩
              · simp [hmem] at hm
              · rw [hfd] at hf
                cases hf
            · rw [← hei] at hhead
              exact absurd (List.mem_map_of_mem (fun d => d.id) he2) hhead
        · have hsnoc : memberId (h ++ [d]) i = memberId h i := by
            rw [memberId_snoc, beq_false_of_ne hdi, Bool.or_false]
          rw [hsnoc]
          constructor
          · rintro ⟨e, he, hei, hrest⟩
            exact ⟨e, List.mem_cons_of_mem d he, hei, hrest⟩
          · rintro ⟨e, he, hei, hrest⟩
            rcases List.mem_cons.mp he with rfl | he2
            · exact absurd hei hdi
            · exact ⟨e, he2, hei, hrest⟩

theorem contains_map_ids (batch : List MatchDoc) (j : String) :
    (batch.map (fun d => d.id)).contains j = true ↔ ∃ e ∈ batch, e.id = j := by
  rw [List.elem_iff]
  simp [List.mem_map]

theorem contains_unsafe_ids (r2 : List (String × Nat)) (j : String) :
    ((r2.filter (fun e => !(e.2 == 11000))).map (fun e => e.1)).contains j = true ↔
      ∃ cc, (j, cc) ∈ r2 ∧ cc ≠ 11000 := by
  constructor
  · intro hj
    obtain ⟨p, hp, rfl⟩ := List.mem_map.mp (List.elem_iff.mp hj)
    obtain ⟨hpmem, hpq⟩ := List.mem_filter.mp hp
    refine ⟨p.2, ?_, ?_⟩
    · simpa using hpmem
    · simpa using hpq
  · rintro ⟨cc, hm, hcc⟩
    apply List.elem_iff.mpr
    apply List.mem_map.mpr
    exact ⟨(j, cc), List.mem_filter.mpr ⟨hm, by simpa using hcc⟩, rfl⟩

/-- Classification of `_process_archiving` outcomes: full-call failure
deletes nothing; otherwise a batch id is deleted exactly when it is in the
history store afterwards. -/
theorem processArchiving_classification
    (s : ArchState) (batch : List MatchDoc) (tf : Bool) (fault : String → Option Nat)
    (hnd : (batch.map (fun d => d.id)).Nodup)
    (hfault : ∀ j cc, fault j = some cc → cc ≠ 11000)
    (hin : ∀ d ∈ batch, memberId s.active d.id = true) :
    (tf = true → processArchiving s batch tf fault = s) ∧
    (tf = false → ∀ d ∈ batch,
      (memberId (processArchiving s batch tf fault).active d.id = false ↔
       memberId (processArchiving s batch tf fault).history d.id = true)) := by
  constructor
  · rintro rfl
    rfl
  · rintro rfl d hd
    have hact : (processArchiving s batch false fault).active =
        deleteManyByIds s.active
          (if (insertManyUnordered s.history batch fault).2.isEmpty then
            batch.map (fun d => d.id)
           else (batch.map (fun d => d.id)).filter
             (fun j => !((((insertManyUnordered s.history batch fault).2.filter
                 (fun e => !(e.2 == 11000))).map (fun e => e.1)).contains j))) := rfl
    have hhist : (processArchiving s batch false fault).history =
        (insertManyUnordered s.history batch fault).1 := rfl
    rw [hact, hhist, memberId_deleteMany, hin d hd, Bool.true_and,
      mem_insertMany_hist batch s.history fault d.id hnd]
    have hbatchmem : d.id ∈ batch.map (fun e => e.id) := List.mem_map_of_mem _ hd
    constructor
    · intro hdel
      replace hdel :
          (if (insertManyUnordered s.history batch fault).2.isEmpty then
            batch.map (fun d => d.id)
           else (batch.map (fun d => d.id)).filter
             (fun j => !((((insertManyUnordered s.history batch fault).2.filter
                 (fun e => !(e.2 == 11000))).map (fun e => e.1)).contains j))).contains d.id = true := by
        simpa using hdel
      cases hh : memberId s.history d.id with
      | true => exact Or.inl rfl
      | false =>
        cases hfd : fault d.id with
        | none => exact Or.inr ⟨⟨d, hd, rfl⟩, rfl, rfl⟩
        | some cc =>
          exfalso
          have herr : (d.id, cc) ∈ (insertManyUnordered s.history batch fault).2 :=
            (mem_insertMany_errs batch s.history fault d.id cc hnd).mpr
              ⟨d, hd, rfl, Or.inr ⟨hh, hfd⟩⟩
          have hne : (insertManyUnordered s.history batch fault).2.isEmpty = false := by
            cases hq : (insertManyUnordered s.history batch fault).2.isEmpty with
            | false => rfl
            | true =>
              rw [List.isEmpty_iff.mp hq] at herr
              cases herr
          rw [hne] at hdel
          rw [if_neg Bool.false_ne_true] at hdel
          obtain ⟨-, hnotun⟩ := List.mem_filter.mp (List.elem_iff.mp hdel)
          have hun : ((((insertManyUnordered s.history batch fault).2.filter
              (fun e => !(e.2 == 11000))).map (fun e => e.1)).contains d.id) = true :=
            (contains_unsafe_ids _ d.id).mpr ⟨cc, herr, hfault d.id cc hfd⟩
          rw [hun] at hnotun
          cases hnotun
    · intro hdur
      have hsafe : ((((insertManyUnordered s.history batch fault).2.filter
          (fun e => !(e.2 == 11000))).map (fun e => e.1)).contains d.id) = false := by
        cases hq : ((((insertManyUnordered s.history batch fault).2.filter
            (fun e => !(e.2 == 11000))).map (fun e => e.1)).contains d.id) with
        | false => rfl
        | true =>
          exfalso
          obtain ⟨cc, herr, hcc⟩ := (contains_unsafe_ids _ d.id).mp hq
          obtain ⟨e, -, -, hcase⟩ :=
            (mem_insertMany_errs batch s.history fault d.id cc hnd).mp herr
          rcases hdur with hh | ⟨-, hh, hfd⟩
          · rcases hcase with ⟨-, hc11⟩ | ⟨hm, -⟩
            · exact hcc hc11
            · rw [hh] at hm
              cases hm
          · rcases hcase with ⟨hm, -⟩ | ⟨-, hf⟩
            · rw [hh] at hm
              cases hm
            · rw [hfd] at hf
              cases hf
      have hcont :
          (if (insertManyUnordered s.history batch fault).2.isEmpty then
            batch.map (fun d => d.id)
           else (batch.map (fun d => d.id)).filter
             (fun j => !((((insertManyUnordered s.history batch fault).2.filter
                 (fun e => !(e.2 == 11000))).map (fun e => e.1)).contains j))).contains d.id = true := by
        cases hq : (insertManyUnordered s.history batch fault).2.isEmpty with
        | true =>
          rw [if_pos rfl]
          exact List.elem_iff.mpr hbatchmem
        | false =>
          rw [if_neg Bool.false_ne_true]
          apply List.elem_iff.mpr
          apply List.mem_filter.mpr
          exact ⟨hbatchmem, by rw [hsafe]; rfl⟩
      rw [hcont]
      rfl

/-- C2: over the archiver's insert-then-delete batch operation (batch read
from the active store, batch ids pairwise distinct, non-duplicate write
faults never carrying the duplicate-key code), if the bulk insert call
fails entirely no id of the batch is deleted from the active store, and
otherwise an id of the batch is deleted from the active store exactly when
its record sits in the history store afterwards — i.e. when its insert
succeeded or failed only with a duplicate-key conflict (code 11000). -/
theorem processArchiving_delete_iff_durable
    (s : ArchState) (batch : List MatchDoc) (tf : Bool) (fault : String → Option Nat)
    (hnd : (batch.map (fun d => d.id)).Nodup)
    (hfault : ∀ j cc, fault j = some cc → cc ≠ 11000)
    (hin : ∀ d ∈ batch, memberId s.active d.id = true) :
    (tf = true → processArchiving s batch tf fault = s) ∧
    (tf = false → ∀ d ∈ batch,
      (memberId (processArchiving s batch tf fault).active d.id = false ↔
       memberId (processArchiving s batch tf fault).history d.id = true)) :=
  processArchiving_classification s batch tf fault hnd hfault hin

/-- Witness for `processArchiving_delete_iff_durable`: id `C` is already in
the history store, so its insert fails with a duplicate-key conflict only;
`C` is deleted from the active store anyway and its record remains in
history. -/
theorem processArchiving_delete_iff_durable_witness :
    memberId (processArchiving
        { active := [{ id := "C", status := "COMPLETED", timePolled := 0, payload := 1 }],
          history := [{ id := "C", status := "COMPLETED", timePolled := 0, payload := 0 }] }
        [{ id := "C", status := "COMPLETED", timePolled := 0, payload := 1 }]
        false (fun _ => none)).active "C" = false ∧
    memberId (processArchiving
        { active := [{ id := "C", status := "COMPLETED", timePolled := 0, payload := 1 }],
          history := [{ id := "C", status := "COMPLETED", timePolled := 0, payload := 0 }] }
        [{ id := "C", status := "COMPLETED", timePolled := 0, payload := 1 }]
        false (fun _ => none)).history "C" = true := by
  have h := (processArchiving_delete_iff_durable
      { active := [{ id := "C", status := "COMPLETED", timePolled := 0, payload := 1 }],
        history := [{ id := "C", status := "COMPLETED", timePolled := 0, payload := 0 }] }
      [{ id := "C", status := "COMPLETED", timePolled := 0, payload := 1 }]
      false (fun _ => none)
      (by decide) (fun j cc hc => Option.noConfusion hc) (by decide)).2 rfl
      { id := "C", status := "COMPLETED", timePolled := 0, payload := 1 } (by decide)
  have hh : memberId (processArchiving
      { active := [{ id := "C", status := "COMPLETED", timePolled := 0, payload := 1 }],
        history := [{ id := "C", status := "COMPLETED", timePolled := 0, payload := 0 }] }
      [{ id := "C", status := "COMPLETED", timePolled := 0, payload := 1 }]
      false (fun _ => none)).history "C" = true := by decide
  exact ⟨h.mpr hh, hh⟩

theorem processArchiving_active_sublist (s : ArchState) (batch : List MatchDoc)
    (tf : Bool) (fault : String → Option Nat) :
    List.Sublist (processArchiving s batch tf fault).active s.active := by
  cases tf with
  | true =>
    have h : processArchiving s batch true fault = s := rfl
    rw [h]
  | false =>
    have h : (processArchiving s batch false fault).active =
        deleteManyByIds s.active
          (if (insertManyUnordered s.history batch fault).2.isEmpty then
            batch.map (fun d => d.id)
           else (batch.map (fun d => d.id)).filter
             (fun i => !((((insertManyUnordered s.history batch fault).2.filter
                 (fun e => !(e.2 == 11000))).map (fun e => e.1)).contains i))) := rfl
    rw [h]
    exact List.filter_sublist _

/-- A record that `_process_archiving` removed from the active collection
is in the history collection afterwards. -/
theorem processArchiving_removed_durable
    (s : ArchState) (batch : List MatchDoc) (fault : String → Option Nat)
    (hnd : (batch.map (fun d => d.id)).Nodup)
    (hfault : ∀ j cc, fault j = some cc → cc ≠ 11000)
    (hin : ∀ d ∈ batch, memberId s.active d.id = true)
    (j : String)
    (hact : memberId s.active j = true)
    (hrem : memberId (processArchiving s batch false fault).active j = false) :
    memberId (processArchiving s batch false fault).history j = true := by
  have hrem0 := hrem
  have heq : (processArchiving s batch false fault).active =
      deleteManyByIds s.active
        (if (insertManyUnordered s.history batch fault).2.isEmpty then
          batch.map (fun d => d.id)
         else (batch.map (fun d => d.id)).filter
           (fun i => !((((insertManyUnordered s.history batch fault).2.filter
               (fun e => !(e.2 == 11000))).map (fun e => e.1)).contains i))) := rfl
  rw [heq, memberId_deleteMany, hact, Bool.true_and] at hrem
  replace hrem :
      (if (insertManyUnordered s.history batch fault).2.isEmpty then
        batch.map (fun d => d.id)
       else (batch.map (fun d => d.id)).filter
         (fun i => !((((insertManyUnordered s.history batch fault).2.filter
             (fun e => !(e.2 == 11000))).map (fun e => e.1)).contains i))).contains j = true := by
    simpa using hrem
  have hmem : ∃ e ∈ batch, e.id = j := by
    cases hq : (insertManyUnordered s.history batch fault).2.isEmpty with
    | true =>
      rw [hq, if_pos rfl] at hrem
      exact (contains_map_ids batch j).mp hrem
    | false =>
      rw [hq, if_neg Bool.false_ne_true] at hrem
      obtain ⟨hmm, -⟩ := List.mem_filter.mp (List.elem_iff.mp hrem)
      obtain ⟨e, he, hei⟩ := List.mem_map.mp hmm
      exact ⟨e, he, hei⟩
  obtain ⟨e, he, rfl⟩ := hmem
  exact ((processArchiving_classification s batch false fault hnd hfault hin).2 rfl e he).mp hrem0

/-- C3 (amended): over `archive_completed_matches` (batch-archive of
COMPLETED documents followed by the time-based sweep, on an active store
with pairwise distinct ids), every record removed from the active store is
either durably present in the history store afterwards (the batch-archive
path never deletes otherwise) or was selected by the time-based sweep —
`timePolled` older than the 15-minute cutoff and status not COMPLETED —
which deletes such stale records directly, without copying them to
history. -/
theorem archiveCompleted_deletes_only_archived_or_stale
    (s : ArchState) (now staleThreshold : Int) (tf : Bool) (fault : String → Option Nat)
    (hnd : (s.active.map (fun d => d.id)).Nodup)
    (hfault : ∀ j cc, fault j = some cc → cc ≠ 11000) :
    ∀ d ∈ s.active,
      memberId (archiveCompletedMatches s now staleThreshold tf fault).active d.id = false →
      (memberId (archiveCompletedMatches s now staleThreshold tf fault).history d.id = true ∨
       (d.timePolled < now - staleThreshold ∧ d.status ≠ "COMPLETED")) := by
  intro d hd hrem
  have hndc : ((s.active.filter (fun d => d.status == "COMPLETED")).map (fun d => d.id)).Nodup :=
    hnd.sublist ((List.filter_sublist _).map _)
  have hinc : ∀ e ∈ s.active.filter (fun d => d.status == "COMPLETED"),
      memberId s.active e.id = true := by
    intro e he
    exact (memberId_iff_exists _ _).mpr ⟨e, (List.mem_filter.mp he).1, rfl⟩
  have hs1sub : List.Sublist (archiveCompletedStage s tf fault).active s.active := by
    unfold archiveCompletedStage
    by_cases hq : (s.active.filter (fun d => d.status == "COMPLETED")).isEmpty = true
    · rw [if_pos hq]
    · rw [if_neg hq]
      exact processArchiving_active_sublist _ _ _ _
  have hstage1 : memberId (archiveCompletedStage s tf fault).active d.id = false →
      memberId (archiveCompletedStage s tf fault).history d.id = true := by
    intro h1
    have hda : memberId s.active d.id = true := (memberId_iff_exists _ _).mpr ⟨d, hd, rfl⟩
    unfold archiveCompletedStage at h1 ⊢
    by_cases hq : (s.active.filter (fun d => d.status == "COMPLETED")).isEmpty = true
    · rw [if_pos hq] at h1
      rw [h1] at hda
      cases hda
    · rw [if_neg hq] at h1 ⊢
      cases tf with
      | true =>
        have hps : processArchiving s (s.active.filter (fun d => d.status == "COMPLETED"))
            true fault = s := rfl
        rw [hps] at h1
        rw [h1] at hda
        cases hda
      | false =>
        exact processArchiving_removed_durable s _ fault hndc hfault hinc d.id hda h1
  have hfhist : (archiveCompletedMatches s now staleThreshold tf fault).history =
      (archiveCompletedStage s tf fault).history := by
    unfold archiveCompletedMatches staleSweepStage
    by_cases hq : ((archiveCompletedStage s tf fault).active.filter
        (fun d => decide (d.timePolled < now - staleThreshold) &&
          !(d.status == "COMPLETED"))).isEmpty = true
    · rw [if_pos hq]
    · rw [if_neg hq]
  cases hmid : memberId (archiveCompletedStage s tf fault).active d.id with
  | false =>
    left
    rw [hfhist]
    exact hstage1 hmid
  | true =>
    right
    unfold archiveCompletedMatches staleSweepStage at hrem
    by_cases hq : ((archiveCompletedStage s tf fault).active.filter
        (fun d => decide (d.timePolled < now - staleThreshold) &&
          !(d.status == "COMPLETED"))).isEmpty = true
    · rw [if_pos hq] at hrem
      rw [hrem] at hmid
      cases hmid
    · rw [if_neg hq] at hrem
      dsimp only at hrem
      rw [memberId_deleteMany, hmid, Bool.true_and] at hrem
      replace hrem : (((archiveCompletedStage s tf fault).active.filter
          (fun d => decide (d.timePolled < now - staleThreshold) &&
            !(d.status == "COMPLETED"))).map (fun d => d.id)).contains d.id = true := by
        simpa using hrem
      obtain ⟨e, he, hei⟩ := (contains_map_ids _ d.id).mp hrem
      obtain ⟨hemem, hpred⟩ := List.mem_filter.mp he
      have hes : e ∈ s.active := hs1sub.subset hemem
      have hed : e = d := List.inj_on_of_nodup_map hnd hes hd hei
      subst hed
      simp only [Bool.and_eq_true, decide_eq_true_eq, Bool.not_eq_true', beq_eq_false_iff_ne] at hpred
      exact hpred

/-- Witness for `archiveCompleted_deletes_only_archived_or_stale` at a
concrete input: a COMPLETED record is archived (removed and present in
history) and a stale LIVE record is swept. -/
theorem archiveCompleted_deletes_only_archived_or_stale_witness :
    memberId (archiveCompletedMatches
        { active := [{ id := "X", status := "LIVE", timePolled := 0, payload := 0 },
                     { id := "Y", status := "COMPLETED", timePolled := 990, payload := 0 }],
          history := [] }
        1000 STALE_THRESHOLD_SECONDS false (fun _ => none)).active "Y" = false ∧
    (memberId (archiveCompletedMatches
        { active := [{ id := "X", status := "LIVE", timePolled := 0, payload := 0 },
                     { id := "Y", status := "COMPLETED", timePolled := 990, payload := 0 }],
          history := [] }
        1000 STALE_THRESHOLD_SECONDS false (fun _ => none)).history "Y" = true ∨
     ((990 : Int) < 1000 - STALE_THRESHOLD_SECONDS ∧ ("COMPLETED" : String) ≠ "COMPLETED")) := by
  refine ⟨by decide, ?_⟩
  exact archiveCompleted_deletes_only_archived_or_stale
    { active := [{ id := "X", status := "LIVE", timePolled := 0, payload := 0 },
                 { id := "Y", status := "COMPLETED", timePolled := 990, payload := 0 }],
      history := [] }
    1000 STALE_THRESHOLD_SECONDS false (fun _ => none)
    (by decide) (fun j cc hc => Option.noConfusion hc)
    { id := "Y", status := "COMPLETED", timePolled := 990, payload := 0 }
    (by decide) (by decide)

/-! ## Quarantine-reconciliation lemmas -/

theorem handleQuarantine_quarantine_eq (period : Int) (liveIds : List String) (now : Int)
    (s : ServiceState) :
    (handleQuarantineLogic period liveIds now s).state.quarantine =
      quarantineAfter s liveIds now := by
  unfold handleQuarantineLogic
  by_cases hq : (archiveBatch period (quarantineAfter s liveIds now) now).isEmpty = true
  · rw [if_pos hq]
  · rw [if_neg hq, mongoArchiverLookup_archive_matches_by_ids]

theorem handleQuarantine_batch_eq (period : Int) (liveIds : List String) (now : Int)
    (s : ServiceState) :
    (handleQuarantineLogic period liveIds now s).batch =
      archiveBatch period (quarantineAfter s liveIds now) now := by
  unfold handleQuarantineLogic
  by_cases hq : (archiveBatch period (quarantineAfter s liveIds now) now).isEmpty = true
  · rw [if_pos hq]
  · rw [if_neg hq, mongoArchiverLookup_archive_matches_by_ids]

/-- C5: for any grace period (a duration, hence nonnegative), an id that
was not quarantined before the pass and is quarantined after it must have
been in the active store and absent from the live summary in this pass, and
such a freshly quarantined id is never part of the same pass's archive
batch — its entry carries `firstMissingAt = now`, and the batch only takes
entries strictly older than the grace period. -/
theorem quarantine_entry_only_when_absent_and_not_archived
    (period : Int) (liveIds : List String) (now : Int) (s : ServiceState) (i : String)
    (hperiod : 0 ≤ period)
    (hbefore : ∀ t, (i, t) ∉ s.quarantine)
    (hafter : ∃ t, (i, t) ∈ (handleQuarantineLogic period liveIds now s).state.quarantine) :
    (∃ d ∈ s.active, d.id = i) ∧ i ∉ liveIds ∧
    i ∉ (handleQuarantineLogic period liveIds now s).batch := by
  rw [handleQuarantine_quarantine_eq] at hafter
  rw [handleQuarantine_batch_eq]
  obtain ⟨t, ht⟩ := hafter
  unfold quarantineAfter at ht
  rcases List.mem_append.mp ht with h1 | h2
  · exact absurd ((List.mem_filter.mp h1).1) (hbefore t)
  · obtain ⟨j, hj, hji⟩ := List.mem_map.mp h2
    injection hji with hji1 hji2
    unfold newlyOrphanedIds at hj
    obtain ⟨hmm, hcond⟩ := List.mem_filter.mp hj
    rw [hji1] at hmm hcond
    obtain ⟨d, hdmem, hdid⟩ := List.mem_map.mp hmm
    have hnotlive : i ∉ liveIds := by
      intro hl
      simp [hl] at hcond
    refine ⟨⟨d, hdmem, hdid⟩, hnotlive, ?_⟩
    intro hb
    unfold archiveBatch at hb
    obtain ⟨p, hp, hpi⟩ := List.mem_map.mp hb
    obtain ⟨hpq2, hpold⟩ := List.mem_filter.mp hp
    unfold quarantineAfter at hpq2
    rcases List.mem_append.mp hpq2 with hh1 | hh2
    · have hmem2 := (List.mem_filter.mp hh1).1
      apply hbefore p.2
      rw [← hpi]
      simpa using hmem2
    · obtain ⟨j2, hj2, hj2e⟩ := List.mem_map.mp hh2
      have hp2 : p.2 = now := by rw [← hj2e]
      rw [hp2] at hpold
      simp at hpold
      omega

/-- Witness for `quarantine_entry_only_when_absent_and_not_archived`: match
`A` sits in the active store, is absent from an empty live feed and was not
quarantined; after the pass it is quarantined and not in the archive
batch. -/
theorem quarantine_entry_only_when_absent_and_not_archived_witness :
    (∃ d ∈ [({ id := "A", status := "LIVE", timePolled := 0, payload := 0 } : MatchDoc)],
        d.id = "A") ∧
    "A" ∉ ([] : List String) ∧
    "A" ∉ (handleQuarantineLogic 60 [] 10
      { active := [{ id := "A", status := "LIVE", timePolled := 0, payload := 0 }],
        history := [], quarantine := [], cache := none }).batch :=
  quarantine_entry_only_when_absent_and_not_archived 60 [] 10
    { active := [{ id := "A", status := "LIVE", timePolled := 0, payload := 0 }],
      history := [], quarantine := [], cache := none } "A"
    (by decide) (fun t => List.not_mem_nil _) ⟨10, by decide⟩

/-- C6: an id that is quarantined and present again in the live summary is
released in that pass — no entry for it survives in the quarantine map —
and it is not part of the pass's archive batch, whatever its
`firstMissingAt` timestamp was (even one older than the grace period). -/
theorem reappeared_id_released_and_not_archived
    (period : Int) (liveIds : List String) (now t : Int) (s : ServiceState) (i : String)
    (_hq : (i, t) ∈ s.quarantine) (hlive : i ∈ liveIds) :
    (∀ u, (i, u) ∉ (handleQuarantineLogic period liveIds now s).state.quarantine) ∧
    i ∉ (handleQuarantineLogic period liveIds now s).batch := by
  have hkey : ∀ u, (i, u) ∉ quarantineAfter s liveIds now := by
    intro u hu
    unfold quarantineAfter at hu
    rcases List.mem_append.mp hu with h1 | h2
    · have hcond := (List.mem_filter.mp h1).2
      simp at hcond
      exact hcond hlive
    · obtain ⟨j, hj, hje⟩ := List.mem_map.mp h2
      injection hje with hj1 hj2
      unfold newlyOrphanedIds at hj
      have hcond := (List.mem_filter.mp hj).2
      rw [hj1] at hcond
      simp [hlive] at hcond
  constructor
  · rw [handleQuarantine_quarantine_eq]
    exact hkey
  · rw [handleQuarantine_batch_eq]
    intro hb
    unfold archiveBatch at hb
    obtain ⟨p, hp, hpi⟩ := List.mem_map.mp hb
    have hpq2 := (List.mem_filter.mp hp).1
    apply hkey p.2
    rw [← hpi]
    simpa using hpq2

/-- Witness for `reappeared_id_released_and_not_archived`: match `B`,
quarantined since t = 0, reappears in the feed at t = 100 (past the
60-second grace period); it is released and not archived. -/
theorem reappeared_id_released_and_not_archived_witness :
    (∀ u, ("B", u) ∉ (handleQuarantineLogic 60 ["B"] 100
      { active := [{ id := "B", status := "LIVE", timePolled := 0, payload := 0 }],
        history := [], quarantine := [("B", 0)], cache := none }).state.quarantine) ∧
    "B" ∉ (handleQuarantineLogic 60 ["B"] 100
      { active := [{ id := "B", status := "LIVE", timePolled := 0, payload := 0 }],
        history := [], quarantine := [("B", 0)], cache := none }).batch :=
  reappeared_id_released_and_not_archived 60 ["B"] 100 0
    { active := [{ id := "B", status := "LIVE", timePolled := 0, payload := 0 }],
      history := [], quarantine := [("B", 0)], cache := none } "B"
    (by decide) (by decide)

/-! ## Stall-monitor lemmas -/

theorem createScoreHash_const (md : MatchScore) (hg : md.currentGame.isSome = true)
    (w1 w2 : Int) : createScoreHash md w1 = createScoreHash md w2 := by
  unfold createScoreHash
  cases hmd : md.currentGame with
  | some g => rfl
  | none =>
    rw [hmd] at hg
    simp at hg

/-- One stall check over the singleton snapshot `{mid : md}` starting from
a tracked state with the same fingerprint: the entry keeps its hash and
`lastUpdated`, the alert flag is set exactly when the threshold is newly
exceeded, and the alert list holds `mid` exactly in that case. -/
theorem checkAndUpdate_singleton
    (dur : Int) (mid : String) (md : MatchScore) (now t0 : Int) (b : Bool)
    (st : String → Option StallSt)
    (hlive : md.status = "LIVE")
    (hg : md.currentGame.isSome = true)
    (hst : st mid = some { scoreHash := createScoreHash md t0, lastUpdated := t0, alertSent := b }) :
    ((checkAndUpdateAll dur [(mid, md)] now st).1 mid =
      some { scoreHash := createScoreHash md t0, lastUpdated := t0,
             alertSent := b || (decide (now - t0 > dur) && !b) }) ∧
    ((checkAndUpdateAll dur [(mid, md)] now st).2 =
      if (decide (now - t0 > dur) && !b) = true then [mid] else []) := by
  have hhash : createScoreHash md now = createScoreHash md t0 :=
    createScoreHash_const md hg now t0
  by_cases hq : (decide (now - t0 > dur) && !b) = true
  · constructor
    · simp [checkAndUpdateAll, stallStep, hlive, hst, hhash, hq]
    · simp [checkAndUpdateAll, stallStep, hlive, hst, hhash, hq]
  · replace hq : (decide (now - t0 > dur) && !b) = false := by
      cases hqq : (decide (now - t0 > dur) && !b) with
      | false => rfl
      | true => exact absurd hqq hq
    constructor
    · simp [checkAndUpdateAll, stallStep, hlive, hst, hhash, hq]
    · simp [checkAndUpdateAll, stallStep, hlive, hst, hhash, hq]

theorem runStall_expected (dur : Int) (mid : String) (md : MatchScore) (t0 : Int)
    (hlive : md.status = "LIVE") (hg : md.currentGame.isSome = true) :
    ∀ (ts : List Int) (b : Bool) (st : String → Option StallSt),
      st mid = some { scoreHash := createScoreHash md t0, lastUpdated := t0, alertSent := b } →
      (runStall dur mid md ts st).2 = expectedAlerts dur t0 ts b := by
  intro ts
  induction ts with
  | nil =>
    intro b st hst
    rfl
  | cons t ts ih =>
    intro b st hst
    obtain ⟨hstate, halerts⟩ := checkAndUpdate_singleton dur mid md t t0 b st hlive hg hst
    have hcontains : (checkAndUpdateAll dur [(mid, md)] t st).2.contains mid =
        (decide (t - t0 > dur) && !b) := by
      rw [halerts]
      by_cases hq : (decide (t - t0 > dur) && !b) = true
      · rw [if_pos hq, hq]
        simp
      · replace hq : (decide (t - t0 > dur) && !b) = false := by
          cases hqq : (decide (t - t0 > dur) && !b) with
          | false => rfl
          | true => exact absurd hqq hq
        rw [hq, if_neg Bool.false_ne_true]
        rfl
    unfold runStall expectedAlerts
    dsimp only
    rw [hcontains, ih (b || (decide (t - t0 > dur) && !b)) _ hstate]

theorem expectedAlerts_count (dur t0 : Int) :
    ∀ (ts : List Int) (b : Bool),
      (expectedAlerts dur t0 ts b).count true =
        if (!b && ts.any (fun t => decide (t - t0 > dur))) = true then 1 else 0 := by
  intro ts
  induction ts with
  | nil =>
    intro b
    simp [expectedAlerts]
  | cons t ts ih =>
    intro b
    unfold expectedAlerts
    dsimp only
    rw [List.count_cons, ih]
    cases hb : b with
    | true => simp
    | false =>
      cases hdt : decide (t - t0 > dur) with
      | true => simp [of_decide_eq_true hdt]
      | false => simp [of_decide_eq_false hdt]

/-- C7: over any sequence of checks in which match `mid` stays LIVE with a
constant fingerprint (tracked since `t0` with no alert sent), the cycles
that alert for `mid` are exactly the predicted pattern — one single alert,
at the first check whose elapsed time since `t0` exceeds the stall
threshold, none before and none after — so the total number of alerts is 1
if some check exceeds the threshold and 0 otherwise; and a check that sees
a changed fingerprint resets the entry's `lastChangedAt` to the check time
and clears the alert flag. -/
theorem stall_monitor_exactly_one_alert
    (dur : Int) (mid : String) (md : MatchScore) (t0 : Int) (ts : List Int)
    (st : String → Option StallSt)
    (hlive : md.status = "LIVE") (hg : md.currentGame.isSome = true)
    (hst : st mid = some { scoreHash := createScoreHash md t0, lastUpdated := t0,
                           alertSent := false }) :
    (runStall dur mid md ts st).2 = expectedAlerts dur t0 ts false ∧
    (runStall dur mid md ts st).2.count true =
      (if ts.any (fun t => decide (t - t0 > dur)) = true then 1 else 0) ∧
    (∀ (md2 : MatchScore) (now : Int) (st2 : String → Option StallSt) (b : Bool),
      md2.status = "LIVE" →
      createScoreHash md2 now ≠ createScoreHash md t0 →
      st2 mid = some { scoreHash := createScoreHash md t0, lastUpdated := t0, alertSent := b } →
      (checkAndUpdateAll dur [(mid, md2)] now st2).1 mid =
        some { scoreHash := createScoreHash md2 now, lastUpdated := now, alertSent := false }) := by
  have hrun := runStall_expected dur mid md t0 hlive hg ts false st hst
  refine ⟨hrun, ?_, ?_⟩
  · rw [hrun, expectedAlerts_count]
    simp
  · intro md2 now st2 b hlive2 hdiff hst2
    have hbeq : (createScoreHash md t0 == createScoreHash md2 now) = false :=
      beq_false_of_ne (Ne.symm hdiff)
    simp [checkAndUpdateAll, stallStep, hlive2, hst2, hbeq]

/-- Witness for `stall_monitor_exactly_one_alert`: threshold 10 seconds,
streak start t = 0, checks at t = 5, 20, 30 — the alert fires exactly at
t = 20 and the total count is one. -/
theorem stall_monitor_exactly_one_alert_witness :
    (runStall 10 "m" { sets := [(1, 0)], currentGame := some ("15", "0"), status := "LIVE" }
        [5, 20, 30]
        (fun k => if k == "m" then
          some { scoreHash := createScoreHash
                   { sets := [(1, 0)], currentGame := some ("15", "0"), status := "LIVE" } 0,
                 lastUpdated := 0, alertSent := false }
         else none)).2 = [false, true, false] ∧
    (runStall 10 "m" { sets := [(1, 0)], currentGame := some ("15", "0"), status := "LIVE" }
        [5, 20, 30]
        (fun k => if k == "m" then
          some { scoreHash := createScoreHash
                   { sets := [(1, 0)], currentGame := some ("15", "0"), status := "LIVE" } 0,
                 lastUpdated := 0, alertSent := false }
         else none)).2.count true = 1 := by
  obtain ⟨h1, h2, -⟩ := stall_monitor_exactly_one_alert 10 "m"
    { sets := [(1, 0)], currentGame := some ("15", "0"), status := "LIVE" } 0 [5, 20, 30]
    (fun k => if k == "m" then
      some { scoreHash := createScoreHash
               { sets := [(1, 0)], currentGame := some ("15", "0"), status := "LIVE" } 0,
             lastUpdated := 0, alertSent := false }
     else none)
    rfl rfl (by simp)
  refine ⟨?_, ?_⟩
  · rw [h1]
    decide
  · rw [h2]
    decide

/-! ## Enrichment-merge lemmas -/

theorem find_after_save (l : List ClientDoc) (mid : String) (data : ClientDoc)
    (hany : l.any (fun d => d.id == mid) = true)
    (hdata : (data.id == mid) = true) :
    (l.map (fun d => if d.id == mid then data else d)).find? (fun d => d.id == mid) =
      some data := by
  induction l with
  | nil => simp at hany
  | cons d l ih =>
    rw [List.map_cons]
    cases hd : (d.id == mid) with
    | true =>
      rw [if_pos rfl]
      exact List.find?_cons_of_pos _ hdata
    | false =>
      rw [if_neg Bool.false_ne_true]
      rw [List.any_cons, hd, Bool.false_or] at hany
      rw [List.find?_cons_of_neg _ (by simp [hd])]
      exact ih hany

theorem any_upsertFast_of_any (store : List ClientDoc) (mid : String) (fd : ClientDoc)
    (h : store.any (fun d => d.id == mid) = true) :
    (upsertFastClient store mid fd).any (fun d => d.id == mid) = true := by
  unfold upsertFastClient
  rw [if_pos h]
  obtain ⟨d, hd, hdp⟩ := List.any_eq_true.mp h
  apply List.any_eq_true.mpr
  refine ⟨_, List.mem_map_of_mem _ hd, ?_⟩
  rw [if_pos hdp]
  exact hdp

/-- The fast-lane upsert touches only the four live fields: a document it
replaces keeps its id and all detail fields. -/
theorem upsertFast_updates_only_live_fields (d fd : ClientDoc) :
    ({ d with timePolled := fd.timePolled, score := fd.score,
              tournament := fd.tournament, players := fd.players } : ClientDoc).id = d.id ∧
    ({ d with timePolled := fd.timePolled, score := fd.score,
              tournament := fd.tournament, players := fd.players } : ClientDoc).statistics =
      d.statistics :=
  ⟨rfl, rfl⟩

/-- C10 (amended): the merge itself never writes live-score fields — the
merged document keeps the `score`, `players`, `tournament` and `timePolled`
of the record as read at the start of enrichment, and fills in the detail
fields (`hasDetailedData`, `detailedDataUpdated`, statistics, point by
point, H2H, court, round).  But because `save_match_data` `$set`s the whole
merged document, the saved record's live fields hold those read-time
values even when a fast-lane upsert landed between the read and the save —
the newer fast-lane write is overwritten, so the no-clobber guarantee
holds only when no fast-lane write interleaves. -/
theorem enrichment_preserves_read_time_live_fields
    (store : List ClientDoc) (mid : String) (cur : ClientDoc) (raw : RawDetail)
    (fb : Option ClientDoc) (now : Int)
    (hcur : store.find? (fun d => d.id == mid) = some cur) :
    (enrichWithConcurrentFastWrite store mid (some raw) fb now).find?
        (fun d => d.id == mid) = some (mergeDetailedWithFastData cur raw now) ∧
    (mergeDetailedWithFastData cur raw now).score = cur.score ∧
    (mergeDetailedWithFastData cur raw now).players = cur.players ∧
    (mergeDetailedWithFastData cur raw now).tournament = cur.tournament ∧
    (mergeDetailedWithFastData cur raw now).timePolled = cur.timePolled ∧
    (mergeDetailedWithFastData cur raw now).hasDetailedData = true ∧
    (mergeDetailedWithFastData cur raw now).detailedDataUpdated = some now := by
  have hcurid : (cur.id == mid) = true := by
    have hp := List.find?_some hcur
    exact hp
  have hmergeid : ((mergeDetailedWithFastData cur raw now).id == mid) = true := hcurid
  have hany : store.any (fun d => d.id == mid) = true :=
    List.any_eq_true.mpr ⟨cur, List.mem_of_find?_eq_some hcur, hcurid⟩
  refine ⟨?_, rfl, rfl, rfl, rfl, rfl, rfl⟩
  unfold enrichWithConcurrentFastWrite
  rw [hcur]
  dsimp only
  have hmerge : enrichSingleMatch (some cur) (some raw) now =
      some (mergeDetailedWithFastData cur raw now) := rfl
  rw [hmerge]
  dsimp only
  cases fb with
  | none =>
    dsimp only
    unfold saveMatchData
    rw [if_pos hany]
    exact find_after_save store mid _ hany hmergeid
  | some fd =>
    dsimp only
    unfold saveMatchData
    have hany2 := any_upsertFast_of_any store mid fd hany
    rw [if_pos hany2]
    exact find_after_save _ mid _ hany2 hmergeid

/-- Witness for `enrichment_preserves_read_time_live_fields` at a concrete
input: the saved document is exactly the merge of the read-time record,
whose score is the read-time score. -/
theorem enrichment_preserves_read_time_live_fields_witness :
    (enrichWithConcurrentFastWrite
        [{ id := "m1", tournament := "T", players := "P", score := "sets 0-0", timePolled := 0,
           round := none, court := none, matchInfoStarted := none, statistics := [],
           pointByPoint := [], h2h := [], hasDetailedData := false, detailedDataUpdated := none }]
        "m1"
        (some { matchXml := { stats := none, statistics := none, h2h := none,
                              courtName := none, round := none },
                pointByPointHtml := [], statisticsHtml := [] })
        none 7).find? (fun d => d.id == "m1") =
      some (mergeDetailedWithFastData
        { id := "m1", tournament := "T", players := "P", score := "sets 0-0", timePolled := 0,
          round := none, court := none, matchInfoStarted := none, statistics := [],
          pointByPoint := [], h2h := [], hasDetailedData := false, detailedDataUpdated := none }
        { matchXml := { stats := none, statistics := none, h2h := none,
                        courtName := none, round := none },
          pointByPointHtml := [], statisticsHtml := [] } 7) ∧
    (mergeDetailedWithFastData
        { id := "m1", tournament := "T", players := "P", score := "sets 0-0", timePolled := 0,
          round := none, court := none, matchInfoStarted := none, statistics := [],
          pointByPoint := [], h2h := [], hasDetailedData := false, detailedDataUpdated := none }
        { matchXml := { stats := none, statistics := none, h2h := none,
                        courtName := none, round := none },
          pointByPointHtml := [], statisticsHtml := [] } 7).score = "sets 0-0" := by
  obtain ⟨h1, h2, -⟩ := enrichment_preserves_read_time_live_fields
    [{ id := "m1", tournament := "T", players := "P", score := "sets 0-0", timePolled := 0,
       round := none, court := none, matchInfoStarted := none, statistics := [],
       pointByPoint := [], h2h := [], hasDetailedData := false, detailedDataUpdated := none }]
    "m1"
    { id := "m1", tournament := "T", players := "P", score := "sets 0-0", timePolled := 0,
      round := none, court := none, matchInfoStarted := none, statistics := [],
      pointByPoint := [], h2h := [], hasDetailedData := false, detailedDataUpdated := none }
    { matchXml := { stats := none, statistics := none, h2h := none,
                    courtName := none, round := none },
      pointByPointHtml := [], statisticsHtml := [] }
    none 7 (by decide)
  exact ⟨h1, h2⟩

end Tenipo
